import Mathlib

set_option maxRecDepth 100000

/-!
Verification development for the Travle.ai conversational recommendation core.

The definitions below are a shallow embedding of the TypeScript source:

  * `src/app/api/assistant/route.ts` — completeness analyzer
    (`shouldGenerateRecommendations`), response validator
    (`validateRecommendationResponse`) and the conversation handler (`POST`,
    embedded here as `assistantPOST`).
  * `src/app/api/map-recommendations/route.ts` — the geographic handler
    (`POST`, embedded here as `mapPOST`), including its JSON extraction
    regexes and id backfill.
  * `src/docs/VERCEL_DEPLOYMENT.md` — the OpenRouter client
    (`handleErrorResponse`), whose full source is inlined in that document.

JavaScript runtime behaviour that the routes rely on is modelled explicitly:
JSON.parse is `parseChars`/`parseJsonStr`, property access including the throw
on `null` receivers is `jsG`/`checkPlan`, truthiness is `truthy`, and the two
extraction regexes of the map route are `fencedExtract`/`braceExtract`.
-/

namespace Travle

/-- A JSON number, kept as an unnormalized mantissa and decimal exponent:
the claims under study only ever ask whether a value is a number and
whether it is zero, never how it prints or compares. -/
structure JNum where
  mant : Int
  exp10 : Int
deriving DecidableEq

/-- JSON values as produced by JSON.parse. -/
inductive Json where
  | null : Json
  | bool (b : Bool) : Json
  | num (q : JNum) : Json
  | str (s : String) : Json
  | arr (xs : List Json) : Json
  | obj (fields : List (String × Json)) : Json

/-- Result of a JavaScript property access that did not throw:
either `undefined` or an actual value. -/
inductive Jsv where
  | undefined : Jsv
  | val (j : Json) : Jsv

/-- Lookup of a key in an object field list (first occurrence; the JSON
parser below keeps keys unique, later duplicates overwriting in place,
matching JSON.parse). -/
def objLookup : List (String × Json) → String → Jsv
  | [], _ => .undefined
  | (k, v) :: fs, key => if k = key then .val v else objLookup fs key

/-- Replace the value of `key` in place if present, otherwise append the
binding; this is both how JSON.parse treats duplicate keys and how a spread
`\x7b...o, key: v\x7d` and an assignment `o.key = v` treat an existing key. -/
def jsUpsert : List (String × Json) → String → Json → List (String × Json)
  | [], key, v => [(key, v)]
  | (k, w) :: fs, key, v =>
    if k = key then (k, v) :: fs else (k, w) :: jsUpsert fs key v

/-- Total model of a JavaScript property access `j.key` for receivers on
which it does not throw.  Access on `null` throws a TypeError in JS; every
place in the embedded routes where the receiver can be `null` handles that
case explicitly before calling `jsG`, so the `null` branch here is never
relied upon. -/
def jsG : Json → String → Jsv
  | .obj fs, key => objLookup fs key
  | _, _ => .undefined

/-- Property access on an intermediate `Jsv`; used only behind truthiness
guards (so the receiver is never `null`/`undefined` where it matters) and
for the optional chain `errorData.error?.message` of the OpenRouter client,
where `undefined`/`null` receivers yield `undefined` by design. -/
def jsvG : Jsv → String → Jsv
  | .undefined, _ => .undefined
  | .val j, key => jsG j key

/-- JavaScript truthiness of a property-access result. -/
def truthy : Jsv → Bool
  | .undefined => false
  | .val .null => false
  | .val (.bool b) => b
  | .val (.num q) => decide (q.mant ≠ 0)
  | .val (.str s) => decide (s ≠ "")
  | .val (.arr _) => true
  | .val (.obj _) => true

/-- `typeof v === "string"`. -/
def isStr : Jsv → Bool
  | .val (.str _) => true
  | _ => false

/-- `typeof v === "number"`. -/
def isNum : Jsv → Bool
  | .val (.num _) => true
  | _ => false

/-- `Array.isArray(v)`. -/
def isArr : Jsv → Bool
  | .val (.arr _) => true
  | _ => false

/-- The element list of an array value (only used where `isArr` held). -/
def arrOf : Jsv → List Json
  | .val (.arr xs) => xs
  | _ => []

/-- `v.length` of an array value. -/
def jsvLen (v : Jsv) : Nat := (arrOf v).length

/-- `a || b` on JavaScript values: the first truthy operand. -/
def jsOr2 (a b : Jsv) : Jsv := if truthy a then a else b

/-- String rendering used when a value is spliced into a template literal.
Only the string case is ever exercised by the claims; the remaining cases
are rough stand-ins for JS ToString. -/
def jsDisplay : Jsv → String
  | .undefined => "undefined"
  | .val .null => "null"
  | .val (.bool b) => cond b "true" "false"
  | .val (.num q) => toString q.mant
  | .val (.str s) => s
  | .val (.arr _) => ""
  | .val (.obj _) => "[object Object]"

end Travle

namespace Travle

/-! ## Character classes and literal matching

These model the character classes of the JavaScript regular expressions in
`shouldGenerateRecommendations` (ASCII word characters, whitespace, digits)
and literal matching of the concrete alternation branches.  JS `test` only
asks whether a match exists somewhere in the string, which is what the
scanners below compute. -/

/-- JS regex `\w` (the analyzed corpus is lowercased ASCII text). -/
def isWordChar (c : Char) : Bool := c.isAlpha || c.isDigit || c = '_'

/-- JS regex `\s` (the common whitespace characters). -/
def isSpaceChar (c : Char) : Bool :=
  c = ' ' || c = '\t' || c = '\n' || c = '\r' || c = '\x0b' || c = '\x0c'

/-- Match a literal character sequence at the head of the input, returning
the rest of the input on success. -/
def matchLit : List Char → List Char → Option (List Char)
  | [], s => some s
  | _ :: _, [] => none
  | p :: ps, c :: cs => if c = p then matchLit ps cs else none

/-- Does any of the given literals match at the head of the input? -/
def anyLitHere (lits : List (List Char)) (s : List Char) : Bool :=
  lits.any fun p => (matchLit p s).isSome

/-- Does any of the given literals match at the head of the input with a
word boundary right after it (`lit\b`)?  All literals used end in a word
character, so the boundary holds exactly when the next character is absent
or not a word character. -/
def anyLitHereB (lits : List (List Char)) (s : List Char) : Bool :=
  lits.any fun p =>
    match matchLit p s with
    | some [] => true
    | some (c :: _) => !isWordChar c
    | none => false

/-- After at least one whitespace character, skip whitespace and require a
word character: the continuation `\s+\w+` of the destination intent regex. -/
def skipSpacesWord : List Char → Bool
  | [] => false
  | c :: cs => if isSpaceChar c then skipSpacesWord cs else isWordChar c

/-- `\s+\w+`: first character must be whitespace. -/
def spacesThenWord : List Char → Bool
  | [] => false
  | c :: cs => isSpaceChar c && skipSpacesWord cs

/-- Existence of a match of a head predicate at any position. -/
def scanPos (p : List Char → Bool) : List Char → Bool
  | [] => false
  | c :: cs => p (c :: cs) || scanPos p cs

/-- Existence of a match at a position preceded by a word boundary (`\b`
before a literal starting with a word character: previous character absent
or not a word character).  `prev` is the character before the current
position. -/
def scanBnd (p : List Char → Bool) : Option Char → List Char → Bool
  | _, [] => false
  | prev, c :: cs =>
    ((match prev with | none => true | some q => !isWordChar q) && p (c :: cs))
      || scanBnd p (some c) cs

end Travle

namespace Travle

/-! ## Completeness analyzer, `src/app/api/assistant/route.ts` lines 24-69

`shouldGenerateRecommendations` combines the user/assistant message contents
into one lowercased corpus and tests it against three regex families.  Each
family is embedded as an executable scanner with the exact alternatives and
anchors of the source regex. -/

/-- The intent phrases of `\b(want to|going to|visit|travel to|interested
in|thinking about)\s+\w+`. -/
def destIntentLits : List (List Char) :=
  ["want to".data, "going to".data, "visit".data, "travel to".data,
   "interested in".data, "thinking about".data]

/-- The nouns of `\b(beach|mountain|city|europe|asia|africa|america|country|island)\b`. -/
def destNounLits : List (List Char) :=
  ["beach".data, "mountain".data, "city".data, "europe".data, "asia".data,
   "africa".data, "america".data, "country".data, "island".data]

/-- One intent phrase followed by `\s+\w+` at the head of the input. -/
def intentHere (s : List Char) : Bool :=
  destIntentLits.any fun p =>
    match matchLit p s with
    | some r => spacesThenWord r
    | none => false

/-- The destination regexes of lines 38-39. -/
def hasDestinationSignal (t : String) : Bool :=
  scanBnd intentHere none t.data || scanBnd (anyLitHereB destNounLits) none t.data

/-- The bare keywords of the budget regex (substring matches, no `\b`). -/
def budgetWordLits : List (List Char) :=
  ["budget".data, "spend".data, "afford".data, "cost".data, "price".data,
   "cheap".data, "expensive".data]

/-- The currency names of `\d+\s*(dollars|usd|euros|pounds)`. -/
def currencyLits : List (List Char) :=
  ["dollars".data, "usd".data, "euros".data, "pounds".data]

/-- After the leading digit of `\d+\s*(...)`: skip the remaining digits,
then whitespace, then require a currency name.  Equivalent to the
backtracking semantics because a currency name starts with a letter, which
is neither a digit nor whitespace. -/
def skipSpacesCurrency : List Char → Bool
  | [] => false
  | c :: cs => if isSpaceChar c then skipSpacesCurrency cs else anyLitHere currencyLits (c :: cs)

def digitsSpacesCurrency : List Char → Bool
  | [] => false
  | c :: cs => if c.isDigit then digitsSpacesCurrency cs else skipSpacesCurrency (c :: cs)

/-- One alternative of the budget regex
`\$\d+|budget|spend|afford|cost|price|cheap|expensive|\d+\s*(dollars|usd|euros|pounds)`
at the head of the input. -/
def budgetHere (s : List Char) : Bool :=
  (match s with
   | a :: b :: _ => a = '$' && b.isDigit
   | _ => false)
  || anyLitHere budgetWordLits s
  || (match s with
      | c :: cs => c.isDigit && digitsSpacesCurrency cs
      | [] => false)

/-- The budget regex of line 46. -/
def hasBudgetSignal (t : String) : Bool := scanPos budgetHere t.data

/-- The month names of the dates regex. -/
def monthLits : List (List Char) :=
  ["january".data, "february".data, "march".data, "april".data, "may".data,
   "june".data, "july".data, "august".data, "september".data, "october".data,
   "november".data, "december".data]

/-- `\d{4}` at the head of the input. -/
def fourDigitsHere : List Char → Bool
  | a :: b :: c :: d :: _ => a.isDigit && b.isDigit && c.isDigit && d.isDigit
  | _ => false

/-- The periods of `next (week|month|year|summer|winter|spring|fall)`. -/
def periodLits : List (List Char) :=
  ["week".data, "month".data, "year".data, "summer".data, "winter".data,
   "spring".data, "fall".data]

/-- `next (...)` at the head of the input (no trailing boundary). -/
def nextPeriodHere (s : List Char) : Bool :=
  match matchLit "next ".data s with
  | some r => anyLitHere periodLits r
  | none => false

/-- The units of `in \d+ (days|weeks|months)`. -/
def unitLits : List (List Char) :=
  ["days".data, "weeks".data, "months".data]

/-- After the leading digit of `in \d+ (...)`: skip the remaining digits,
then require a single space and a unit. -/
def digitsSpaceUnit : List Char → Bool
  | [] => false
  | c :: cs => if c.isDigit then digitsSpaceUnit cs else c = ' ' && anyLitHere unitLits cs

/-- `in \d+ (days|weeks|months)` at the head of the input. -/
def inNUnitsHere (s : List Char) : Bool :=
  match matchLit "in ".data s with
  | some (c :: cs) => c.isDigit && digitsSpaceUnit cs
  | _ => false

/-- The hedge words of `\b(soon|later|planning)\b`. -/
def vagueLits : List (List Char) :=
  ["soon".data, "later".data, "planning".data]

/-- The four date regexes of lines 53-56, combined with `||` as in the source. -/
def hasDatesSignal (t : String) : Bool :=
  (scanPos fourDigitsHere t.data || scanBnd (anyLitHereB monthLits) none t.data)
  || scanPos nextPeriodHere t.data
  || scanPos inNUnitsHere t.data
  || scanBnd (anyLitHereB vagueLits) none t.data

/-- Message roles, mirroring the union type of `Message.role` in `lib/types`. -/
inductive Role where
  | user : Role
  | assistant : Role
  | system : Role
deriving DecidableEq

/-- A conversation message (`lib/types` `Message`; the timestamp plays no
role in any embedded computation). -/
structure Message where
  role : Role
  content : String
  timestamp : Int := 0

/-- `Array.prototype.join(" ")`. -/
def joinSp : List String → String
  | [] => ""
  | [s] => s
  | s :: rest => s ++ " " ++ joinSp rest

/-- `String.prototype.toLowerCase` (character-wise ASCII lowering). -/
def jsToLowerCase (s : String) : String := String.mk (s.data.map Char.toLower)

/-- Lines 29-33: contents of the user/assistant messages, joined with one
space and lowercased. -/
def convText (messages : List Message) : String :=
  jsToLowerCase
    (joinSp ((messages.filter fun m => m.role == Role.user || m.role == Role.assistant).map
      Message.content))

/-- `shouldGenerateRecommendations`, lines 24-69: the pair
`(shouldGenerate, missingInfo)`.  The list is built in the push order of the
source: destination, budget, dates. -/
def shouldGenerateRecommendations (messages : List Message) : Bool × List String :=
  (hasDestinationSignal (convText messages)
     && (hasBudgetSignal (convText messages) || hasDatesSignal (convText messages)),
   (if hasDestinationSignal (convText messages) then [] else ["destination"])
     ++ (if hasBudgetSignal (convText messages) then [] else ["budget"])
     ++ (if hasDatesSignal (convText messages) then [] else ["dates"]))

end Travle

namespace Travle

/-! ## A model of JSON.parse

A standard recursive-descent JSON parser over character lists, used to model
the `JSON.parse` calls of both routes.  Recursion is bounded by explicit
fuel (any input of length `n` nests fewer than `n` levels). -/

/-- The brace characters, named to keep them out of string and character
literals. -/
def lbraceChar : Char := Char.ofNat 123

def rbraceChar : Char := Char.ofNat 125

/-- The backtick character. -/
def btickChar : Char := Char.ofNat 96

/-- JSON insignificant whitespace. -/
def jsonWs (c : Char) : Bool := c = ' ' || c = '\t' || c = '\n' || c = '\r'

def skipW (s : List Char) : List Char := s.dropWhile jsonWs

/-- Value of one hexadecimal digit. -/
def hexVal (c : Char) : Option Nat :=
  if c.isDigit then some (c.toNat - 48)
  else if 'a' ≤ c ∧ c ≤ 'f' then some (c.toNat - 97 + 10)
  else if 'A' ≤ c ∧ c ≤ 'F' then some (c.toNat - 65 + 10)
  else none

/-- Body of a JSON string literal after the opening quote: returns the
decoded string and the rest of the input after the closing quote.
Surrogate-pair recombination of `\uXXXX` escapes is not modelled (no claim
depends on it). -/
def pStrGo : List Char → List Char → Option (String × List Char)
  | _, [] => none
  | acc, c :: cs =>
    if c = '"' then some (String.mk acc.reverse, cs)
    else if c = '\\' then
      match cs with
      | [] => none
      | e :: cs2 =>
        if e = '"' then pStrGo ('"' :: acc) cs2
        else if e = '\\' then pStrGo ('\\' :: acc) cs2
        else if e = '/' then pStrGo ('/' :: acc) cs2
        else if e = 'b' then pStrGo ('\x08' :: acc) cs2
        else if e = 'f' then pStrGo ('\x0c' :: acc) cs2
        else if e = 'n' then pStrGo ('\n' :: acc) cs2
        else if e = 'r' then pStrGo ('\r' :: acc) cs2
        else if e = 't' then pStrGo ('\t' :: acc) cs2
        else if e = 'u' then
          match cs2 with
          | h1 :: h2 :: h3 :: h4 :: cs3 =>
            match hexVal h1, hexVal h2, hexVal h3, hexVal h4 with
            | some a, some b, some c2, some d =>
              pStrGo (Char.ofNat (((a * 16 + b) * 16 + c2) * 16 + d) :: acc) cs3
            | _, _, _, _ => none
          | _ => none
        else none
    else if c.toNat < 32 then none
    else pStrGo (c :: acc) cs

def spanDigits (s : List Char) : List Char × List Char :=
  (s.takeWhile Char.isDigit, s.dropWhile Char.isDigit)

def digitsToNat (ds : List Char) : Nat :=
  ds.foldl (fun a c => a * 10 + (c.toNat - 48)) 0

/-- Optional exponent part of a JSON number.  Returns exponent `0` when no
`e`/`E` follows; fails when an exponent marker has no digits. -/
def pExp : List Char → Option (Int × List Char)
  | [] => some (0, [])
  | c :: rest =>
    if c = 'e' || c = 'E' then
      let signRest : Bool × List Char :=
        match rest with
        | '+' :: rr => (false, rr)
        | '-' :: rr => (true, rr)
        | _ => (false, rest)
      match spanDigits signRest.2 with
      | ([], _) => none
      | (ds, r2) =>
        some ((if signRest.1 then -(digitsToNat ds : Int) else (digitsToNat ds : Int)), r2)
    else some (0, c :: rest)

/-- Optional fraction part of a JSON number; a `.` must be followed by at
least one digit. -/
def pFrac : List Char → Option (List Char × List Char)
  | '.' :: r =>
    match spanDigits r with
    | ([], _) => none
    | (ds, r2) => some (ds, r2)
  | s => some ([], s)

/-- A JSON number (with the leading-zero restriction of the grammar). -/
def pNum (s : List Char) : Option (Json × List Char) :=
  let signRest : Bool × List Char :=
    match s with
    | '-' :: r => (true, r)
    | _ => (false, s)
  match spanDigits signRest.2 with
  | ([], _) => none
  | (ds, r1) =>
    if 1 < ds.length && ds.head? == some '0' then none
    else
      match pFrac r1 with
      | none => none
      | some (fr, r2) =>
        match pExp r2 with
        | none => none
        | some (e, r3) =>
          let m : Int := digitsToNat (ds ++ fr)
          some (Json.num ⟨if signRest.1 then -m else m, e - (fr.length : Int)⟩, r3)

/-- Parser mode: a single value, array items with the accumulated prefix,
or object members with the accumulated fields.  One function over all three
modes keeps the recursion structural in the fuel, so that concrete parses
reduce definitionally. -/
inductive PMode where
  | value : PMode
  | items (acc : List Json) : PMode
  | members (acc : List (String × Json)) : PMode

/-- The recursive core of JSON.parse.  In `value` mode: one JSON value
(leading whitespace allowed).  In `items` mode: comma-separated array items
up to the closing bracket.  In `members` mode: comma-separated object
members up to the closing brace (duplicate keys overwrite in place, as in
JSON.parse). -/
def pStep : Nat → PMode → List Char → Option (Json × List Char)
  | 0, _, _ => none
  | fu + 1, .value, s =>
    match skipW s with
    | [] => none
    | c :: cs =>
      if c = 't' then (matchLit "rue".data cs).map fun r => (Json.bool true, r)
      else if c = 'f' then (matchLit "alse".data cs).map fun r => (Json.bool false, r)
      else if c = 'n' then (matchLit "ull".data cs).map fun r => (Json.null, r)
      else if c = '"' then (pStrGo [] cs).map fun t => (Json.str t.1, t.2)
      else if c = '[' then
        match skipW cs with
        | ']' :: r => some (Json.arr [], r)
        | s2 => pStep fu (.items []) s2
      else if c = lbraceChar then
        let s2 := skipW cs
        if s2.head? = some rbraceChar then some (Json.obj [], s2.tail)
        else pStep fu (.members []) s2
      else pNum (c :: cs)
  | fu + 1, .items acc, s =>
    match pStep fu .value s with
    | none => none
    | some (v, r) =>
      match skipW r with
      | ',' :: r2 => pStep fu (.items (acc ++ [v])) r2
      | ']' :: r2 => some (Json.arr (acc ++ [v]), r2)
      | _ => none
  | fu + 1, .members acc, s =>
    match skipW s with
    | [] => none
    | c :: cs =>
      if c = '"' then
        match pStrGo [] cs with
        | none => none
        | some (key, r1) =>
          match skipW r1 with
          | ':' :: r2 =>
            match pStep fu .value r2 with
            | none => none
            | some (v, r3) =>
              match skipW r3 with
              | ',' :: r4 => pStep fu (.members (jsUpsert acc key v)) r4
              | r5 =>
                if r5.head? = some rbraceChar then
                  some (Json.obj (jsUpsert acc key v), r5.tail)
                else none
          | _ => none
      else none

/-- `JSON.parse` on a character list: one value plus only trailing
whitespace. -/
def parseChars (s : List Char) : Option Json :=
  match pStep (2 * s.length + 2) .value s with
  | some (v, r) => if skipW r = [] then some v else none
  | none => none

/-- `JSON.parse` on a string (`none` models a thrown SyntaxError). -/
def parseJsonStr (s : String) : Option Json := parseChars s.data

end Travle

namespace Travle

/-! ## Response validator, `src/app/api/assistant/route.ts` lines 237-281

`validateRecommendationResponse` parses the raw completion with JSON.parse
(a SyntaxError becomes the fixed parse-error message) and then checks the
schema.  Property access on `null` throws a TypeError in JS and propagates
out of the function; that is the `typeError` case.  Inner accesses such as
`plan.duration.startDate` are guarded by the truthiness of the receiver in
the source and therefore cannot throw, so they use the total `jsG`/`jsvG`. -/

/-- Typed validator outcome: SyntaxError is mapped to the fixed message of
line 277, schema violations carry the thrown message, TypeError models
property access on `null`. -/
inductive VError where
  | parseError (msg : String)
  | schemaError (msg : String)
  | typeError (msg : String)

/-- The `Plan ${index + 1}` part of every per-plan error message. -/
def planTag (i : Nat) : String := "Plan " ++ toString (i + 1)

/-- The per-plan checks of lines 256-272, for the plan at index `i`. -/
def checkPlan (i : Nat) (plan : Json) : Except VError Unit :=
  match plan with
  | .null => .error (.typeError "Cannot read properties of null")
  | p =>
    if !truthy (jsG p "destination") || !truthy (jsG p "country") then
      .error (.schemaError (planTag i ++ " missing destination or country"))
    else if !truthy (jsG p "duration")
        || !truthy (jsvG (jsG p "duration") "startDate")
        || !truthy (jsvG (jsG p "duration") "endDate") then
      .error (.schemaError (planTag i ++ " missing duration information"))
    else if !truthy (jsG p "budget") || !isNum (jsvG (jsG p "budget") "estimated") then
      .error (.schemaError (planTag i ++ " missing budget information"))
    else if !isArr (jsG p "highlights") || jsvLen (jsG p "highlights") == 0 then
      .error (.schemaError (planTag i ++ " missing highlights"))
    else if !isArr (jsG p "activities") || jsvLen (jsG p "activities") == 0 then
      .error (.schemaError (planTag i ++ " missing activities"))
    else .ok ()

/-- The disjunction of the per-plan violation conditions (a `null` plan is
counted as violating, since its field accesses throw). -/
def planBad (p : Json) : Bool :=
  match p with
  | .null => true
  | p =>
    (!truthy (jsG p "destination") || !truthy (jsG p "country"))
      || (!truthy (jsG p "duration")
          || !truthy (jsvG (jsG p "duration") "startDate")
          || !truthy (jsvG (jsG p "duration") "endDate"))
      || (!truthy (jsG p "budget") || !isNum (jsvG (jsG p "budget") "estimated"))
      || (!isArr (jsG p "highlights") || jsvLen (jsG p "highlights") == 0)
      || (!isArr (jsG p "activities") || jsvLen (jsG p "activities") == 0)

/-- `plans.forEach` of line 256: the first violation aborts. -/
def checkPlansFrom (i : Nat) : List Json → Except VError Unit
  | [] => .ok ()
  | p :: ps =>
    match checkPlan i p with
    | .error e => .error e
    | .ok _ => checkPlansFrom (i + 1) ps

/-- Assignment `j.key = v` on an object (the only receiver it is applied to). -/
def jsSetField (j : Json) (key : String) (v : Json) : Json :=
  match j with
  | .obj fs => .obj (jsUpsert fs key v)
  | other => other

/-- Lines 242-274 of `validateRecommendationResponse`, applied to the
already-parsed JSON value. -/
def validateParsed (parsed : Json) : Except VError Json :=
  match parsed with
  | .null => .error (.typeError "Cannot read properties of null")
  | p =>
    if !truthy (jsG p "summary") || !isStr (jsG p "summary") then
      .error (.schemaError "Missing or invalid summary field")
    else
      match jsG p "plans" with
      | .val (.arr l) =>
        if l.length = 0 then .error (.schemaError "Plans must be a non-empty array")
        else
          match checkPlansFrom 0 (if 3 < l.length then l.take 3 else l) with
          | .error e => .error e
          | .ok _ => .ok (jsSetField p "plans" (.arr (if 3 < l.length then l.take 3 else l)))
      | _ => .error (.schemaError "Plans must be a non-empty array")

/-- `validateRecommendationResponse`, lines 237-281. -/
def validateRecommendationResponse (jsonString : String) : Except VError Json :=
  match parseJsonStr jsonString with
  | none => .error (.parseError "Invalid JSON response from AI")
  | some parsed => validateParsed parsed

/-- `recommendations.plans` as used by the handler on line 365. -/
def plansOf (r : Json) : List Json := arrOf (jsG r "plans")

/-- `recommendations.summary` as used by the handler on line 366 (validated
to be a string). -/
def summaryOf (r : Json) : String :=
  match jsG r "summary" with
  | .val (.str s) => s
  | _ => ""

end Travle

namespace Travle

/-! ## Conversation handler, `src/app/api/assistant/route.ts` lines 289-449

`assistantPOST` models one request: `body` is the result of
`request.json()` (`none` when it threw), `llm` is the outcome of the
`openRouterClient.chat` call (`Except.error m` models a thrown `Error`
with message `m`).  The response is reduced to the three shapes the
handler can produce.  The prompt strings and token budgets do not influence
any modelled output and are not embedded. -/

/-- Substring test (`String.prototype.includes`). -/
def strContains (s pat : String) : Bool :=
  scanPos (fun t => (matchLit pat.data t).isSome) s.data

/-- The three response shapes of the handler: a freeform assistant message,
a validated plan list, or an error payload `(code, retryable, status)`. -/
inductive AOut where
  | message (text : String)
  | plans (travelPlans : List Json) (summary : String)
  | err (code : String) (retryable : Bool) (status : Nat)

/-- The catch-block classification of lines 395-448, keyed on the thrown
error message. -/
def classifyCatch (m : String) : AOut :=
  if strContains m "API key" then .err "CONFIG_ERROR" false 500
  else if strContains m "Rate limit" then .err "RATE_LIMIT" true 429
  else if strContains m "network" || strContains m "fetch" then .err "NETWORK_ERROR" true 503
  else .err "INTERNAL_ERROR" true 500

/-- The message-validation condition of line 309:
`!msg.role || !msg.content || typeof msg.content !== "string"`. -/
def badMsgB (m : Json) : Bool :=
  !truthy (jsG m "role") || !truthy (jsG m "content") || !isStr (jsG m "content")

/-- The per-message loop of lines 308-320.  A `null` element makes
`msg.role` throw; the outer catch then yields the generic 500 response. -/
def checkMsgs : List Json → Option AOut
  | [] => none
  | m :: ms =>
    match m with
    | .null => some (.err "INTERNAL_ERROR" true 500)
    | m' =>
      if badMsgB m' then some (.err "INVALID_MESSAGE" false 400)
      else checkMsgs ms

/-- The request validation of lines 295-320; `some e` is an early return.
A `null` body makes `body.messages` throw, handled by the outer catch. -/
def validateRequestBody (b : Json) : Option AOut :=
  match b with
  | .null => some (.err "INTERNAL_ERROR" true 500)
  | b' =>
    if !truthy (jsG b' "messages") || !isArr (jsG b' "messages") then
      some (.err "INVALID_REQUEST" false 400)
    else checkMsgs (arrOf (jsG b' "messages"))

/-- Conversion of a validated JSON message to the typed `Message`.  Roles
other than user/assistant are mapped to `system`: the analyzer filter
excludes them exactly as the `===` comparisons of the source do.  Contents
are strings for every message that passed validation. -/
def toMessage (j : Json) : Message :=
  { role :=
      match jsG j "role" with
      | .val (.str s) =>
        if s = "user" then Role.user
        else if s = "assistant" then Role.assistant
        else Role.system
      | _ => Role.system
    content :=
      match jsG j "content" with
      | .val (.str s) => s
      | _ => ""
    timestamp := 0 }

/-- `body.messages` as passed to the analyzer on line 323. -/
def bodyMessages (b : Json) : List Message := (arrOf (jsG b "messages")).map toMessage

/-- The `POST` handler of `src/app/api/assistant/route.ts`. -/
def assistantPOST (body : Option Json) (llm : Except String String) : AOut :=
  match body with
  | none => .err "INTERNAL_ERROR" true 500
  | some b =>
    match validateRequestBody b with
    | some e => e
    | none =>
      match llm with
      | .error m => classifyCatch m
      | .ok content =>
        if (shouldGenerateRecommendations (bodyMessages b)).1 then
          match validateRecommendationResponse content with
          | .ok recommendations => .plans (plansOf recommendations) (summaryOf recommendations)
          | .error _ => .err "VALIDATION_ERROR" true 500
        else .message content

end Travle

namespace Travle

/-! ## Geographic handler, `src/app/api/map-recommendations/route.ts`

The parse stage (lines 207-228) trims the completion, applies the two
extraction regexes

  * three backticks, optional `json`, `\s*`, a captured brace span, `\s*`,
    three backticks, and
  * the greedy first-brace-to-last-brace span,

in that order, and parses the captured span (or, when neither regex
matches, the whole trimmed content).  The backtracking semantics of the
fenced regex reduce to the deterministic scan below because the characters
after each star are not matched by the star themselves.  The respond stage
(lines 231-249) only requires `plans` to be an array, backfills ids, and
defaults the summary. -/

/-- Whitespace removed by `String.prototype.trim`. -/
def jsTrimWs (c : Char) : Bool :=
  c = ' ' || c = '\t' || c = '\n' || c = '\r' || c = '\x0b' || c = '\x0c'

/-- `content.trim()` on a character list. -/
def jsTrimL (s : List Char) : List Char :=
  ((s.dropWhile jsTrimWs).reverse.dropWhile jsTrimWs).reverse

/-- The three-backtick fence literal. -/
def fenceLit : List Char := [btickChar, btickChar, btickChar]

/-- `\s*` followed by the closing fence. -/
def spacesFence (s : List Char) : Bool :=
  (matchLit fenceLit (s.dropWhile isSpaceChar)).isSome

/-- Greedy `[\s\S]*\}` before `\s*` and the closing fence: try the longest
body first.  `revBody` is the reversed candidate body, `tail` the rest. -/
def findBodySplit : List Char → List Char → Option (List Char)
  | [], _ => none
  | c :: rb, tail =>
    if c = rbraceChar && spacesFence tail then some ((c :: rb).reverse)
    else findBodySplit rb (c :: tail)

/-- The fenced regex anchored at the current position; returns the captured
brace span. -/
def fencedHere (s : List Char) : Option (List Char) :=
  match matchLit fenceLit s with
  | none => none
  | some r1 =>
    let r2 := match matchLit "json".data r1 with
      | some r => r
      | none => r1
    match r2.dropWhile isSpaceChar with
    | c :: t =>
      if c = lbraceChar then (findBodySplit t.reverse []).map fun b => lbraceChar :: b
      else none
    | [] => none

/-- Leftmost match of the fenced regex. -/
def fencedExtract : List Char → Option (List Char)
  | [] => none
  | c :: cs =>
    match fencedHere (c :: cs) with
    | some cap => some cap
    | none => fencedExtract cs

/-- The input from its first opening brace on. -/
def fromFirstBrace : List Char → Option (List Char)
  | [] => none
  | c :: cs => if c = lbraceChar then some (c :: cs) else fromFirstBrace cs

/-- The input cut after its last closing brace. -/
def upToLastClose (s : List Char) : Option (List Char) :=
  if (s.reverse.dropWhile fun c => c ≠ rbraceChar) = [] then none
  else some (s.reverse.dropWhile fun c => c ≠ rbraceChar).reverse

/-- The greedy `(\x7b[\s\S]*\x7d)` regex: from the first opening brace to
the last closing brace after it. -/
def braceExtract (s : List Char) : Option (List Char) :=
  match fromFirstBrace s with
  | none => none
  | some t => upToLastClose t

/-- The parse stage of the geographic handler (lines 207-228): the parsed
`parsedResponse`, or `none` when `JSON.parse` threw. -/
def mapParseContent (content : String) : Option Json :=
  let t := jsTrimL content.data
  match
    (match fencedExtract t with
     | some cap => some cap
     | none => braceExtract t) with
  | some cap => parseChars cap
  | none => parseChars t

/-- Outcomes of the geographic handler: success carries `travelPlans` and
the summary value; `parseFail` is the 500 parse response of line 224;
`invalidFormat` the 500 response of line 232; `thrown` the outer catch. -/
inductive MapResult where
  | ok (travelPlans : List Json) (summary : Json)
  | parseFail
  | invalidFormat
  | thrown (msg : String)

/-- The generated id of line 241 (`Date.now()` is the parameter `now`). -/
def genMapPlanId (now i : Nat) : String :=
  "map-plan-" ++ toString now ++ "-" ++ toString i

/-- The value of `plan.id || generated`. -/
def planIdValue (now i : Nat) (fs : List (String × Json)) : Json :=
  match objLookup fs "id" with
  | .val j => if truthy (.val j) then j else .str (genMapPlanId now i)
  | .undefined => .str (genMapPlanId now i)

/-- One step of the `plans.map` of lines 239-242:
`\x7b ...plan, id: plan.id || generated \x7d`.  A `null` plan makes
`plan.id` throw.  Spreading a non-null primitive contributes no modelled
fields (the index properties contributed by spreading a string are elided;
no claim touches them). -/
def backfillPlan (now i : Nat) (plan : Json) : Except String Json :=
  match plan with
  | .null => .error "Cannot read properties of null"
  | .obj fs => .ok (.obj (jsUpsert fs "id" (planIdValue now i fs)))
  | _ => .ok (.obj (jsUpsert [] "id" (.str (genMapPlanId now i))))

/-- The whole `plans.map` of lines 239-242. -/
def backfillAll (now i : Nat) : List Json → Except String (List Json)
  | [] => .ok []
  | p :: ps =>
    match backfillPlan now i p with
    | .error m => .error m
    | .ok q =>
      match backfillAll now (i + 1) ps with
      | .error m => .error m
      | .ok qs => .ok (q :: qs)

/-- The summary default of line 246. -/
def mapDefaultSummary : Json :=
  .str "Here are some travel recommendations for this location."

/-- The respond stage of the geographic handler (lines 231-249).  A `null`
`parsedResponse` makes `parsedResponse.plans` throw into the outer catch. -/
def mapRespond (now : Nat) (parsed : Json) : MapResult :=
  match parsed with
  | .null => .thrown "Cannot read properties of null"
  | p =>
    if !truthy (jsG p "plans") || !isArr (jsG p "plans") then .invalidFormat
    else
      match backfillAll now 0 (arrOf (jsG p "plans")) with
      | .error m => .thrown m
      | .ok tps =>
        .ok tps
          (if truthy (jsG p "summary") then
            match jsG p "summary" with
            | .val j => j
            | .undefined => mapDefaultSummary
          else mapDefaultSummary)

/-- The `POST` handler of `src/app/api/map-recommendations/route.ts` from
the LLM completion on (the request-validation and prompt-building part does
not influence the claims under study). -/
def mapPOST (now : Nat) (content : String) : MapResult :=
  match mapParseContent content with
  | none => .parseFail
  | some parsed => mapRespond now parsed

end Travle

namespace Travle

/-! ## LLM gateway error classification

`handleErrorResponse` of the OpenRouter client, whose source is inlined in
`src/docs/VERCEL_DEPLOYMENT.md` (lines 331-360 of that document).  The
function throws an `Error`; the embedding returns the thrown message.  The
conversation route then classifies that message in its catch block
(`classifyCatch` above). -/

/-- A non-OK fetch response: status, status text, and the result of
`response.json()` (`none` when parsing the body threw). -/
structure HttpResp where
  status : Nat
  statusText : String
  bodyJson : Option Json

/-- `errorData.error?.message || errorData.message || "Unknown error"`. -/
def gatewayErrorMessage (errorData : Json) : Jsv :=
  jsOr2 (jsvG (jsG errorData "error") "message")
    (jsOr2 (jsG errorData "message") (.val (.str "Unknown error")))

/-- `errorData.error?.code || response.status.toString()`. -/
def gatewayErrorCode (errorData : Json) (status : Nat) : Jsv :=
  jsOr2 (jsvG (jsG errorData "error") "code") (.val (.str (toString status)))

/-- `handleErrorResponse`: the message of the thrown `Error`.  A `null`
body makes `errorData.error` throw before the status switch. -/
def handleErrorResponse (r : HttpResp) : String :=
  match r.bodyJson with
  | none => "OpenRouter API error: " ++ toString r.status ++ " " ++ r.statusText
  | some .null => "Cannot read properties of null"
  | some errorData =>
    if r.status = 401 then
      "Invalid OpenRouter API key. Please check your OPENROUTER_API_KEY environment variable."
    else if r.status = 429 then
      "Rate limit exceeded. Please try again later."
    else if r.status = 400 then
      "Bad request: " ++ jsDisplay (gatewayErrorMessage errorData)
    else if r.status = 500 ∨ r.status = 502 ∨ r.status = 503 then
      "OpenRouter service error: " ++ jsDisplay (gatewayErrorMessage errorData)
        ++ ". Please try again."
    else
      "OpenRouter API error (" ++ jsDisplay (gatewayErrorCode errorData r.status) ++ "): "
        ++ jsDisplay (gatewayErrorMessage errorData)

end Travle

namespace Travle

/-! ## Auxiliary predicates and concrete inputs used in the theorems -/

/-- `pat` is a prefix of `s`. -/
def strStarts (pat s : String) : Bool := (matchLit pat.data s.data).isSome

/-- Not the JSON `null` value. -/
def isNotNullB : Json → Bool
  | .null => false
  | _ => true

/-- A JSON object. -/
def isObjB : Json → Bool
  | .obj _ => true
  | _ => false

/-- The violation condition named by claim C9: a missing or empty role, or
a missing, empty, or non-string content. -/
def claimBadMsg (m : Json) : Prop :=
  (jsG m "role" = .undefined ∨ jsG m "role" = .val (.str ""))
    ∨ (jsG m "content" = .undefined ∨ jsG m "content" = .val (.str "")
        ∨ isStr (jsG m "content") = false)

/-- A plan carrying every field the validator requires (and no `id`). -/
def goodPlan : Json :=
  .obj [("destination", .str "d"), ("country", .str "c"),
        ("duration", .obj [("startDate", .str "a"), ("endDate", .str "b")]),
        ("budget", .obj [("estimated", .num ⟨1, 0⟩)]),
        ("highlights", .arr [.str "h"]), ("activities", .arr [.str "x"])]

/-- The serialized form of `goodPlan`. -/
def goodPlanRaw : String :=
  "\x7b\"destination\":\"d\",\"country\":\"c\",\"duration\":\x7b\"startDate\":\"a\",\"endDate\":\"b\"\x7d,\"budget\":\x7b\"estimated\":1\x7d,\"highlights\":[\"h\"],\"activities\":[\"x\"]\x7d"

/-- A schema-valid response with exactly one plan. -/
def onePlanJson : Json := .obj [("summary", .str "s"), ("plans", .arr [goodPlan])]

/-- The serialized form of `onePlanJson`. -/
def onePlanRaw : String :=
  "\x7b\"summary\":\"s\",\"plans\":[" ++ goodPlanRaw ++ "]\x7d"

/-- A schema-valid response with exactly two plans. -/
def twoPlanJson : Json := .obj [("summary", .str "s"), ("plans", .arr [goodPlan, goodPlan])]

/-- The serialized form of `twoPlanJson`. -/
def twoPlanRaw : String :=
  "\x7b\"summary\":\"s\",\"plans\":[" ++ goodPlanRaw ++ "," ++ goodPlanRaw ++ "]\x7d"

/-- A plan missing its destination (and everything else but country). -/
def badPlan : Json := .obj [("country", .str "c")]

/-- Field list of a response whose fourth plan is missing required fields
while the first three are valid. -/
def fourPlanBadFields : List (String × Json) :=
  [("summary", .str "s"), ("plans", .arr [goodPlan, goodPlan, goodPlan, badPlan])]

/-- The corresponding JSON object. -/
def fourPlanBadJson : Json := .obj fourPlanBadFields

/-- Field list of a response with five valid plans. -/
def fivePlanFields : List (String × Json) :=
  [("summary", .str "s"),
   ("plans", .arr [goodPlan, goodPlan, goodPlan, goodPlan, goodPlan])]

/-- The corresponding JSON object. -/
def fivePlanJson : Json := .obj fivePlanFields

/-- A parsed map-route response with one plan object lacking an id. -/
def mapPlansBody : Json := .obj [("plans", .arr [.obj []])]

/-- A parsed map-route response with four plan objects (no truncation is
expected). -/
def mapPlansBody4 : Json :=
  .obj [("plans", .arr [.obj [], .obj [("id", .str "keep")],
                        .obj [("x", .num ⟨2, 0⟩)], .obj []])]

/-- A response with plans but no summary. -/
def noSummaryJson : Json := .obj [("plans", .arr [goodPlan])]

/-- A valid recommendation object embedded in prose. -/
def proseRaw : String := "Here is your plan: " ++ onePlanRaw ++ " Enjoy!"

/-- A request body whose single message carries enough signals for the
Recommending phase. -/
def readyBody : Json :=
  .obj [("messages", .arr [.obj [("role", .str "user"),
    ("content", .str "I want to visit Japan in March with a budget of $3000")]])]

/-- A request body whose single message has a role but no content. -/
def noContentBody : Json :=
  .obj [("messages", .arr [.obj [("role", .str "user")]])]

end Travle

namespace Travle

/-! ## Supporting lemmas -/

theorem strData_append (a b : String) : (a ++ b).data = a.data ++ b.data := by
  cases a
  cases b
  rfl

theorem matchLit_append (a b : List Char) : matchLit a (a ++ b) = some b := by
  induction a with
  | nil => rfl
  | cons c cs ih => simp [matchLit, ih]

theorem strStarts_append (a b : String) : strStarts a (a ++ b) = true := by
  simp [strStarts, strData_append, matchLit_append]

theorem objLookup_jsUpsert_self (fs : List (String × Json)) (k : String) (v : Json) :
    objLookup (jsUpsert fs k v) k = .val v := by
  induction fs with
  | nil => simp [jsUpsert, objLookup]
  | cons kv fs ih =>
    obtain ⟨k0, w⟩ := kv
    by_cases h0 : k0 = k <;> simp [jsUpsert, objLookup, h0, ih]

theorem objLookup_jsUpsert_other (fs : List (String × Json)) (k k' : String) (v : Json)
    (h : k' ≠ k) : objLookup (jsUpsert fs k v) k' = objLookup fs k' := by
  induction fs with
  | nil => simp [jsUpsert, objLookup, Ne.symm h]
  | cons kv fs ih =>
    obtain ⟨k0, w⟩ := kv
    by_cases h0 : k0 = k
    · subst h0
      simp [jsUpsert, objLookup, Ne.symm h, h]
    · by_cases h1 : k0 = k' <;> simp [jsUpsert, objLookup, h0, h1, h, ih]

theorem plansOf_setPlans (fs : List (String × Json)) (L : List Json) :
    plansOf (jsSetField (.obj fs) "plans" (.arr L)) = L := by
  simp [plansOf, jsSetField, jsG, objLookup_jsUpsert_self, arrOf]

theorem ifchain_ok_iff (c1 c2 c3 c4 c5 : Bool) (e1 e2 e3 e4 e5 : Except VError Unit)
    (he1 : e1 ≠ .ok ()) (he2 : e2 ≠ .ok ()) (he3 : e3 ≠ .ok ())
    (he4 : e4 ≠ .ok ()) (he5 : e5 ≠ .ok ()) :
    ((if c1 then e1 else if c2 then e2 else if c3 then e3 else if c4 then e4
        else if c5 then e5 else .ok ()) = .ok ())
      ↔ (c1 || c2 || c3 || c4 || c5) = false := by
  cases c1 <;> cases c2 <;> cases c3 <;> cases c4 <;> cases c5 <;> simp_all

theorem ifchain_err (c1 c2 c3 c4 c5 : Bool) (t m1 m2 m3 m4 m5 : String)
    (h1 : strStarts t m1 = true) (h2 : strStarts t m2 = true)
    (h3 : strStarts t m3 = true) (h4 : strStarts t m4 = true)
    (h5 : strStarts t m5 = true) (hb : (c1 || c2 || c3 || c4 || c5) = true) :
    ∃ m, (if c1 then Except.error (VError.schemaError m1)
          else if c2 then Except.error (VError.schemaError m2)
          else if c3 then Except.error (VError.schemaError m3)
          else if c4 then Except.error (VError.schemaError m4)
          else if c5 then Except.error (VError.schemaError m5)
          else Except.ok ()) = Except.error (VError.schemaError m)
        ∧ strStarts t m = true := by
  cases c1 <;> cases c2 <;> cases c3 <;> cases c4 <;> cases c5 <;> simp_all

theorem checkPlan_ok_iff (i : Nat) (p : Json) :
    checkPlan i p = .ok () ↔ planBad p = false := by
  cases p
  case null => simp [checkPlan, planBad]
  all_goals
    simp only [checkPlan, planBad]
    exact ifchain_ok_iff _ _ _ _ _ _ _ _ _ _
      (by simp) (by simp) (by simp) (by simp) (by simp)

theorem checkPlan_err (i : Nat) (p : Json) (hnn : p ≠ .null) (hb : planBad p = true) :
    ∃ m, checkPlan i p = .error (.schemaError m) ∧ strStarts (planTag i) m = true := by
  cases p
  case null => exact absurd rfl hnn
  all_goals
    simp only [planBad] at hb
    simp only [checkPlan]
    exact ifchain_err _ _ _ _ _ _ _ _ _ _ _
      (strStarts_append _ _) (strStarts_append _ _) (strStarts_append _ _)
      (strStarts_append _ _) (strStarts_append _ _) hb

end Travle

namespace Travle

theorem checkPlansFrom_ok_iff (i : Nat) (l : List Json) :
    checkPlansFrom i l = .ok () ↔ ∀ p ∈ l, planBad p = false := by
  induction l generalizing i with
  | nil => simp [checkPlansFrom]
  | cons q ps ih =>
    cases hc : checkPlan i q with
    | error e =>
      have hb : planBad q = true := by
        by_contra hb
        rw [Bool.not_eq_true] at hb
        have := (checkPlan_ok_iff i q).mpr hb
        exact Except.noConfusion (this.symm.trans hc)
      simp only [checkPlansFrom, hc]
      constructor
      · intro h
        exact absurd h (by simp)
      · intro h
        have := h q (by simp)
        rw [this] at hb
        exact absurd hb (by simp)
    | ok u =>
      have hq : planBad q = false := (checkPlan_ok_iff i q).mp (by rw [hc])
      simp only [checkPlansFrom, hc]
      constructor
      · intro h p hp
        rcases List.mem_cons.mp hp with rfl | hp'
        · exact hq
        · exact ((ih (i + 1)).mp h) p hp'
      · intro h
        exact (ih (i + 1)).mpr fun p hp => h p (List.mem_cons_of_mem _ hp)

theorem checkPlansFrom_err (i : Nat) (l : List Json) :
    (∀ p ∈ l, p ≠ .null) → (∃ p ∈ l, planBad p = true) →
    ∃ n p m, l.get? n = some p ∧ planBad p = true
      ∧ checkPlansFrom i l = .error (.schemaError m)
      ∧ strStarts (planTag (i + n)) m = true := by
  induction l generalizing i with
  | nil =>
    intro _ hb
    simp at hb
  | cons q ps ih =>
    intro hnn hb
    by_cases hq : planBad q = true
    · obtain ⟨m, hm, hs⟩ := checkPlan_err i q (hnn q (by simp)) hq
      exact ⟨0, q, m, rfl, hq, by simp [checkPlansFrom, hm], by simpa using hs⟩
    · rw [Bool.not_eq_true] at hq
      have hok := (checkPlan_ok_iff i q).mpr hq
      have hb' : ∃ p ∈ ps, planBad p = true := by
        rcases hb with ⟨p, hp, hbp⟩
        rcases List.mem_cons.mp hp with rfl | hp'
        · rw [hbp] at hq
          exact absurd hq (by simp)
        · exact ⟨p, hp', hbp⟩
      obtain ⟨n, p, m, h1, h2, h3, h4⟩ :=
        ih (i + 1) (fun p hp => hnn p (List.mem_cons_of_mem _ hp)) hb'
      refine ⟨n + 1, p, m, by simpa using h1, h2, by simp [checkPlansFrom, hok, h3], ?_⟩
      have : i + 1 + n = i + (n + 1) := by omega
      rwa [this] at h4

theorem validateParsed_ok (j r : Json) (h : validateParsed j = .ok r) :
    ∃ fs l, j = .obj fs ∧ objLookup fs "plans" = .val (.arr l) ∧ l ≠ []
      ∧ (!truthy (objLookup fs "summary") || !isStr (objLookup fs "summary")) = false
      ∧ checkPlansFrom 0 (if 3 < l.length then l.take 3 else l) = .ok ()
      ∧ r = .obj (jsUpsert fs "plans" (.arr (if 3 < l.length then l.take 3 else l))) := by
  cases j <;> simp only [validateParsed] at h
  case null => exact Except.noConfusion h
  case bool b => simp [jsG, truthy, isStr] at h
  case num q => simp [jsG, truthy, isStr] at h
  case str s => simp [jsG, truthy, isStr] at h
  case arr xs => simp [jsG, truthy, isStr] at h
  case obj fs =>
    refine ⟨fs, ?_⟩
    simp only [jsG] at h
    split_ifs at h with hsum
    split at h
    · rename_i l heq
      split_ifs at h with hlen hgt
      · split at h
        · exact Except.noConfusion h
        · rename_i u hcp
          have hr := Except.ok.inj h
          refine ⟨l, rfl, heq, ?_, ?_, ?_, ?_⟩
          · intro hnil
            subst hnil
            simp at hlen
          · simpa [Bool.not_eq_true] using hsum
          · rw [if_pos hgt, hcp]
          · rw [← hr, if_pos hgt]
            rfl
      · split at h
        · exact Except.noConfusion h
        · rename_i u hcp
          have hr := Except.ok.inj h
          refine ⟨l, rfl, heq, ?_, ?_, ?_, ?_⟩
          · intro hnil
            subst hnil
            simp at hlen
          · simpa [Bool.not_eq_true] using hsum
          · rw [if_neg hgt, hcp]
          · rw [← hr, if_neg hgt]
            rfl
    · exact Except.noConfusion h
end Travle

namespace Travle

theorem validateParsed_summaryErr (j : Json) (hnn : j ≠ .null)
    (hsum : (!truthy (jsG j "summary") || !isStr (jsG j "summary")) = true) :
    validateParsed j = .error (.schemaError "Missing or invalid summary field") := by
  cases j
  case null => exact absurd rfl hnn
  all_goals simp [validateParsed, hsum]

theorem validateParsed_plansErr (j : Json) (hnn : j ≠ .null)
    (hsum : (!truthy (jsG j "summary") || !isStr (jsG j "summary")) = false)
    (hpl : ∀ l, jsG j "plans" = .val (.arr l) → l = []) :
    validateParsed j = .error (.schemaError "Plans must be a non-empty array") := by
  cases j
  case null => exact absurd rfl hnn
  all_goals
    simp only [validateParsed]
    rw [if_neg (by simp [hsum])]
    split
    · rename_i l heq
      rw [hpl l heq]
      simp
    · rfl

theorem validateParsed_planErr (fs : List (String × Json)) (l : List Json)
    (hsum : (!truthy (objLookup fs "summary") || !isStr (objLookup fs "summary")) = false)
    (hpl : objLookup fs "plans" = .val (.arr l)) (hne : l ≠ [])
    (hnn : ∀ p ∈ l.take 3, p ≠ .null)
    (hbad : ∃ p ∈ l.take 3, planBad p = true) :
    ∃ n p m, (l.take 3).get? n = some p ∧ planBad p = true
      ∧ validateParsed (.obj fs) = .error (.schemaError m)
      ∧ strStarts (planTag n) m = true := by
  have hif : (if 3 < l.length then l.take 3 else l) = l.take 3 := by
    split_ifs with h
    · rfl
    · exact (List.take_of_length_le (by omega)).symm
  have hlen0 : ¬(l.length = 0) := by
    simpa [List.length_eq_zero] using hne
  obtain ⟨n, p, m, h1, h2, h3, h4⟩ := checkPlansFrom_err 0 (l.take 3) hnn hbad
  refine ⟨n, p, m, h1, h2, ?_, by simpa using h4⟩
  simp [validateParsed, jsG, hsum, hpl, hif, hlen0, h3]

theorem validateParsed_ok_noBad (j r : Json) (h : validateParsed j = .ok r) :
    ∀ p ∈ plansOf r, planBad p = false := by
  obtain ⟨fs, l, hj, hpl, hne, hsum, hcp, hr⟩ := validateParsed_ok j r h
  have : plansOf r = if 3 < l.length then l.take 3 else l := by
    rw [hr]
    exact plansOf_setPlans fs _
  rw [this]
  intro p hp
  exact (checkPlansFrom_ok_iff 0 _).mp hcp p hp

end Travle

namespace Travle

/-! ## Claims -/

/-- C2: For every message log the Completeness Analyzer reports
`ready = true` exactly when the joined lowercased text of the non-system
messages carries a destination signal and a budget or dates signal; the
`missing` list contains exactly the categories among destination, budget
and dates whose signal is absent, independently of the value of `ready`;
and the analyzed corpus is precisely the lowercased content of the
non-system messages. -/
theorem claim_C2 (messages : List Message) :
    (shouldGenerateRecommendations messages).1
      = (hasDestinationSignal (convText messages)
          && (hasBudgetSignal (convText messages) || hasDatesSignal (convText messages)))
    ∧ (∀ c : String,
        c ∈ (shouldGenerateRecommendations messages).2
          ↔ ((c = "destination" ∧ hasDestinationSignal (convText messages) = false)
            ∨ (c = "budget" ∧ hasBudgetSignal (convText messages) = false)
            ∨ (c = "dates" ∧ hasDatesSignal (convText messages) = false)))
    ∧ convText messages
        = jsToLowerCase
            (joinSp ((messages.filter fun m => !(m.role == Role.system)).map
              Message.content)) := by
  refine ⟨rfl, ?_, ?_⟩
  · intro c
    cases h1 : hasDestinationSignal (convText messages) <;>
      cases h2 : hasBudgetSignal (convText messages) <;>
        cases h3 : hasDatesSignal (convText messages) <;>
          simp [shouldGenerateRecommendations, h1, h2, h3]
  · unfold convText
    have hf : (messages.filter fun m => m.role == Role.user || m.role == Role.assistant)
        = (messages.filter fun m => !(m.role == Role.system)) := by
      apply List.filter_congr
      intro m _
      cases hr : m.role <;> simp [hr]
    rw [hf]

/-- C1 counterexample: the validator succeeds on a raw text whose `plans`
array holds exactly one valid plan and returns a one-element plan list,
contradicting the claimed lower bound of two. -/
theorem claim_C1_counterexample :
    validateRecommendationResponse onePlanRaw = .ok onePlanJson
      ∧ (plansOf onePlanJson).length = 1 := ⟨rfl, rfl⟩

/-- C1 (amended): whenever the validator succeeds, the returned plan list
has between 1 and 3 entries (a producer returning more than 3 plans is
truncated, and an empty `plans` array is a hard validation failure); the
bound 2 of the original claim does not hold. -/
theorem claim_C1_amended :
    (∀ raw r, validateRecommendationResponse raw = .ok r →
      1 ≤ (plansOf r).length ∧ (plansOf r).length ≤ 3)
    ∧ (∀ j, j ≠ Json.null → jsG j "plans" = .val (.arr []) →
        (validateParsed j).isOk = false) := by
  constructor
  · intro raw r h
    unfold validateRecommendationResponse at h
    cases hp : parseJsonStr raw with
    | none =>
      rw [hp] at h
      exact Except.noConfusion h
    | some j =>
      rw [hp] at h
      obtain ⟨fs, l, hj, hpl, hne, hsum, hcp, hr⟩ := validateParsed_ok j r h
      have hpl' : plansOf r = if 3 < l.length then l.take 3 else l := by
        rw [hr]
        exact plansOf_setPlans fs _
      rw [hpl']
      have hlen0 : l.length ≠ 0 := by simpa [List.length_eq_zero] using hne
      split_ifs with hgt
      · simp [List.length_take]
        omega
      · constructor
        · omega
        · omega
  · intro j hnn hpl
    cases hs : (!truthy (jsG j "summary") || !isStr (jsG j "summary")) with
    | true =>
      rw [validateParsed_summaryErr j hnn hs]
      rfl
    | false =>
      rw [validateParsed_plansErr j hnn hs ?_]
      · rfl
      · intro l hl
        rw [hpl] at hl
        injection hl with hl'
        injection hl' with hl''
        exact hl''.symm

/-- C1 witness: the amended bounds at a concrete two-plan response. -/
theorem claim_C1_witness :
    1 ≤ (plansOf twoPlanJson).length ∧ (plansOf twoPlanJson).length ≤ 3 :=
  claim_C1_amended.1 twoPlanRaw twoPlanJson (by rfl)

end Travle

namespace Travle

/-- C5 counterexample: a parseable input with more than 3 plans on which
the validator raises a schema error instead of returning the first 3 — the
truncation guarantee does not hold unconditionally. -/
theorem claim_C5_counterexample :
    validateParsed (.obj [("plans", .arr [Json.null, Json.null, Json.null, Json.null])])
        = .error (.schemaError "Missing or invalid summary field")
      ∧ (arrOf (jsG (.obj [("plans",
            .arr [Json.null, Json.null, Json.null, Json.null])]) "plans")).length = 4 :=
  ⟨rfl, rfl⟩

/-- C5 (amended): for every parsed input whose summary passes the check,
whose `plans` field is an array with more than 3 entries, and whose first
three plans pass the per-plan checks, the validator succeeds and returns
exactly the first 3 plans, in unchanged order and with unchanged field
values, as a silent repair and not an error. -/
theorem claim_C5 (j : Json) (fs : List (String × Json)) (l : List Json)
    (hj : j = .obj fs)
    (hsum : (!truthy (objLookup fs "summary") || !isStr (objLookup fs "summary")) = false)
    (hpl : objLookup fs "plans" = .val (.arr l))
    (hlen : 3 < l.length)
    (hok : (l.take 3).all (fun p => !planBad p) = true) :
    validateParsed j = .ok (.obj (jsUpsert fs "plans" (.arr (l.take 3))))
      ∧ plansOf (.obj (jsUpsert fs "plans" (.arr (l.take 3)))) = l.take 3 := by
  subst hj
  have hcp : checkPlansFrom 0 (l.take 3) = .ok () := by
    rw [checkPlansFrom_ok_iff]
    intro p hp
    simpa using List.all_eq_true.mp hok p hp
  have hlen0 : ¬(l.length = 0) := by omega
  refine ⟨?_, plansOf_setPlans fs _⟩
  simp [validateParsed, jsG, jsSetField, hsum, hpl, hlen0, hlen, hcp]

/-- C5 witness: the truncation behaviour at a concrete five-plan response. -/
theorem claim_C5_witness :
    validateParsed fivePlanJson
        = .ok (.obj (jsUpsert fivePlanFields "plans"
            (.arr ([goodPlan, goodPlan, goodPlan, goodPlan, goodPlan].take 3))))
      ∧ plansOf (.obj (jsUpsert fivePlanFields "plans"
            (.arr ([goodPlan, goodPlan, goodPlan, goodPlan, goodPlan].take 3))))
          = [goodPlan, goodPlan, goodPlan, goodPlan, goodPlan].take 3 :=
  claim_C5 fivePlanJson fivePlanFields [goodPlan, goodPlan, goodPlan, goodPlan, goodPlan]
    rfl rfl rfl (by simp) (by rfl)

/-- C4 counterexample: a parseable input whose fourth plan is missing its
destination is accepted by the validator (the bad plan is silently dropped
by the truncation that happens before the per-plan checks), so an input
with a plan missing a required field does not always fail. -/
theorem claim_C4_counterexample :
    validateParsed fourPlanBadJson
        = .ok (.obj (jsUpsert fourPlanBadFields "plans" (.arr [goodPlan, goodPlan, goodPlan])))
      ∧ (arrOf (jsG fourPlanBadJson "plans")).get? 3 = some badPlan
      ∧ planBad badPlan = true := ⟨rfl, rfl, rfl⟩

/-- C4 (amended): a parseable input with a missing or non-string summary,
or an empty or non-array `plans` field, fails with the corresponding
schema error; a violating plan among the first three (the only ones
checked after truncation) fails with a schema error naming the offending
plan index; and a successful validation never returns a plan violating the
per-plan checks. -/
theorem claim_C4_amended :
    (∀ j, j ≠ Json.null →
      (!truthy (jsG j "summary") || !isStr (jsG j "summary")) = true →
      validateParsed j = .error (.schemaError "Missing or invalid summary field"))
    ∧ (∀ j, j ≠ Json.null →
        (!truthy (jsG j "summary") || !isStr (jsG j "summary")) = false →
        (∀ l, jsG j "plans" = .val (.arr l) → l = []) →
        validateParsed j = .error (.schemaError "Plans must be a non-empty array"))
    ∧ (∀ fs l,
        (!truthy (objLookup fs "summary") || !isStr (objLookup fs "summary")) = false →
        objLookup fs "plans" = .val (.arr l) → l ≠ [] →
        (∀ p ∈ l.take 3, p ≠ Json.null) →
        (∃ p ∈ l.take 3, planBad p = true) →
        ∃ n p m, (l.take 3).get? n = some p ∧ planBad p = true
          ∧ validateParsed (.obj fs) = .error (.schemaError m)
          ∧ strStarts (planTag n) m = true)
    ∧ (∀ j r, validateParsed j = .ok r → ∀ p ∈ plansOf r, planBad p = false) :=
  ⟨validateParsed_summaryErr, validateParsed_plansErr, validateParsed_planErr,
   validateParsed_ok_noBad⟩

/-- C4 witness: the missing-summary failure at a concrete input. -/
theorem claim_C4_witness :
    validateParsed noSummaryJson = .error (.schemaError "Missing or invalid summary field") :=
  claim_C4_amended.1 noSummaryJson (fun h => Json.noConfusion h) rfl

end Travle

namespace Travle

theorem fencedHere_none (s : List Char) (h : ∀ c ∈ s, c ≠ btickChar) :
    fencedHere s = none := by
  cases s with
  | nil => rfl
  | cons c cs =>
    have hc : c ≠ btickChar := h c (by simp)
    simp [fencedHere, fenceLit, matchLit, hc]

theorem fencedExtract_none (s : List Char) (h : ∀ c ∈ s, c ≠ btickChar) :
    fencedExtract s = none := by
  induction s with
  | nil => rfl
  | cons c cs ih =>
    simp only [fencedExtract, fencedHere_none _ h]
    exact ih fun x hx => h x (by simp [hx])

theorem dropWhile_append_all (p : Char → Bool) (a b : List Char)
    (h : ∀ c ∈ a, p c = true) : (a ++ b).dropWhile p = b.dropWhile p := by
  induction a with
  | nil => rfl
  | cons c cs ih =>
    simp only [List.cons_append, List.dropWhile_cons, h c (by simp)]
    exact ih fun x hx => h x (by simp [hx])

theorem fromFirstBrace_append (a rest : List Char) (h : ∀ c ∈ a, c ≠ lbraceChar) :
    fromFirstBrace (a ++ rest) = fromFirstBrace rest := by
  induction a with
  | nil => rfl
  | cons c cs ih =>
    simp only [List.cons_append, fromFirstBrace, h c (by simp), if_false]
    exact ih fun x hx => h x (by simp [hx])

theorem upToLastClose_append (mid post : List Char)
    (hpost : ∀ c ∈ post, c ≠ rbraceChar) (hlast : mid.getLast? = some rbraceChar) :
    upToLastClose (mid ++ post) = some mid := by
  have hh : mid.reverse.head? = some rbraceChar := by
    rw [List.head?_reverse]
    exact hlast
  have hdrop : ((mid ++ post).reverse.dropWhile fun c => c ≠ rbraceChar) = mid.reverse := by
    rw [List.reverse_append]
    rw [dropWhile_append_all _ post.reverse mid.reverse
      (by intro c hc; simpa using hpost c (by simpa using hc))]
    cases hrev : mid.reverse with
    | nil => simp [hrev] at hh
    | cons r rs =>
      rw [hrev] at hh
      have hr : r = rbraceChar := by simpa using hh
      subst hr
      simp [List.dropWhile_cons]
  have hne : mid.reverse ≠ [] := by
    intro h0
    rw [h0] at hh
    exact Option.noConfusion hh
  unfold upToLastClose
  rw [hdrop, if_neg hne, List.reverse_reverse]

/-- C3 counterexample: a fully valid recommendation object embedded in
prose (the geographic handler would extract it) makes the assistant
validator fail with ParseError, so the embedded-object recovery claimed
for the Response Validator does not exist there. -/
theorem claim_C3_counterexample :
    validateRecommendationResponse proseRaw
        = .error (.parseError "Invalid JSON response from AI")
      ∧ mapParseContent proseRaw = some onePlanJson := ⟨rfl, rfl⟩

/-- C3 (amended): the conversation validator attempts only the direct
parse — every raw text JSON.parse rejects yields ParseError, recovery or
not — while embedded-object extraction exists only in the geographic
handler, whose parse stage extracts the first-to-last-brace span of a
backtick-free completion and parses exactly that span. -/
theorem claim_C3_amended :
    (∀ raw, parseJsonStr raw = none →
      validateRecommendationResponse raw = .error (.parseError "Invalid JSON response from AI"))
    ∧ (∀ pre mid post : List Char,
        (∀ c ∈ pre, c ≠ lbraceChar ∧ c ≠ btickChar) →
        (∀ c ∈ post, c ≠ rbraceChar ∧ c ≠ btickChar) →
        (∀ c ∈ mid, c ≠ btickChar) →
        mid.head? = some lbraceChar → mid.getLast? = some rbraceChar →
        ∀ content : String, jsTrimL content.data = pre ++ mid ++ post →
        mapParseContent content = parseChars mid) := by
  constructor
  · intro raw h
    unfold validateRecommendationResponse
    rw [h]
  · intro pre mid post hpre hpost hmid hhead hlast content hcontent
    have hbt : ∀ c ∈ pre ++ mid ++ post, c ≠ btickChar := by
      intro c hc
      rcases List.mem_append.mp hc with hc' | hc'
      · rcases List.mem_append.mp hc' with hc'' | hc''
        · exact (hpre c hc'').2
        · exact hmid c hc''
      · exact (hpost c hc').2
    obtain ⟨m0, mt, hm⟩ : ∃ m0 mt, mid = m0 :: mt := by
      cases mid with
      | nil => simp at hhead
      | cons a b => exact ⟨a, b, rfl⟩
    have hm0 : m0 = lbraceChar := by
      rw [hm] at hhead
      simpa using hhead
    have hfb : fromFirstBrace (pre ++ mid ++ post) = some (mid ++ post) := by
      rw [List.append_assoc]
      rw [fromFirstBrace_append pre (mid ++ post) (fun c hc => (hpre c hc).1)]
      rw [hm, hm0, List.cons_append]
      simp [fromFirstBrace]
    have hup : upToLastClose (mid ++ post) = some mid :=
      upToLastClose_append mid post (fun c hc => (hpost c hc).1) hlast
    have hbrace : braceExtract (pre ++ mid ++ post) = some mid := by
      simp only [braceExtract, hfb, hup]
    simp only [mapParseContent]
    rw [hcontent]
    simp only [fencedExtract_none _ hbt, hbrace]

/-- C3 witness: the geographic extraction applied to the concrete
prose-wrapped completion. -/
theorem claim_C3_witness :
    mapParseContent proseRaw = parseChars onePlanRaw.data :=
  claim_C3_amended.2 "Here is your plan: ".data onePlanRaw.data " Enjoy!".data
    (by decide) (by decide) (by decide) (by rfl) (by rfl) proseRaw (by rfl)

end Travle

namespace Travle

/-- C6: when the request body validates, the conversation is in the
Recommending phase, and the validator rejects the LLM completion with a
ParseError or SchemaError, the handler answers with the typed
VALIDATION_ERROR failure, retryable and with status 500 — never with a
freeform message and never with a plan list. -/
theorem claim_C6 (b : Json) (content : String) (e : VError)
    (hval : validateRequestBody b = none)
    (hphase : (shouldGenerateRecommendations (bodyMessages b)).1 = true)
    (hfail : validateRecommendationResponse content = .error e)
    (_hkind : (∃ m, e = .parseError m) ∨ (∃ m, e = .schemaError m)) :
    assistantPOST (some b) (.ok content) = .err "VALIDATION_ERROR" true 500 := by
  simp [assistantPOST, hval, hphase, hfail]

/-- C6 witness: the refusal string of the end-to-end scenario at a concrete
ready-to-recommend body. -/
theorem claim_C6_witness :
    assistantPOST (some readyBody) (.ok "Sorry, I cannot help with that.")
      = .err "VALIDATION_ERROR" true 500 :=
  claim_C6 readyBody "Sorry, I cannot help with that."
    (.parseError "Invalid JSON response from AI") rfl (by decide) rfl (Or.inl ⟨_, rfl⟩)

theorem genMapPlanId_ne (now i : Nat) : genMapPlanId now i ≠ "" := by
  intro h
  have hl := congrArg String.length h
  simp [genMapPlanId, String.length_append] at hl
  exact absurd hl.1.1.1 (by decide)

theorem planIdValue_truthy (now i : Nat) (fs : List (String × Json)) :
    truthy (.val (planIdValue now i fs)) = true := by
  cases h : objLookup fs "id" with
  | undefined => simp [planIdValue, h, truthy, genMapPlanId_ne]
  | val j =>
    simp only [planIdValue, h]
    split_ifs with ht
    · exact ht
    · simp [truthy, genMapPlanId_ne]

theorem backfillAll_ok (now i : Nat) (l : List Json) (hnn : ∀ p ∈ l, p ≠ .null) :
    ∃ tps, backfillAll now i l = .ok tps ∧ tps.length = l.length
      ∧ (∀ n fs, l.get? n = some (.obj fs) →
          tps.get? n = some (.obj (jsUpsert fs "id" (planIdValue now (i + n) fs))))
      ∧ (∀ q ∈ tps, truthy (jsG q "id") = true) := by
  induction l generalizing i with
  | nil => exact ⟨[], rfl, rfl, by simp, by simp⟩
  | cons p ps ih =>
    obtain ⟨tps, h1, h2, h3, h4⟩ := ih (i + 1) fun q hq => hnn q (by simp [hq])
    have hp : p ≠ Json.null := hnn p (by simp)
    cases p
    case null => exact absurd rfl hp
    case obj fs =>
      refine ⟨.obj (jsUpsert fs "id" (planIdValue now i fs)) :: tps,
        by simp [backfillAll, backfillPlan, h1], by simp [h2], ?_, ?_⟩
      · intro n gs hg
        cases n with
        | zero =>
          simp only [List.get?] at hg ⊢
          have hfs : fs = gs := by
            injection Option.some.inj hg
          subst hfs
          simp
        | succ n =>
          simp only [List.get?] at hg ⊢
          have := h3 n gs hg
          have harith : i + 1 + n = i + (n + 1) := by omega
          rwa [harith] at this
      · intro q hq
        rcases List.mem_cons.mp hq with rfl | hq'
        · simp only [jsG, objLookup_jsUpsert_self]
          exact planIdValue_truthy now i fs
        · exact h4 q hq'
    all_goals
      refine ⟨.obj (jsUpsert [] "id" (.str (genMapPlanId now i))) :: tps,
        by simp [backfillAll, backfillPlan, h1], by simp [h2], ?_, ?_⟩
      · intro n gs hg
        cases n with
        | zero => simp at hg
        | succ n =>
          simp only [List.get?] at hg ⊢
          have := h3 n gs hg
          have harith : i + 1 + n = i + (n + 1) := by omega
          rwa [harith] at this
      · intro q hq
        rcases List.mem_cons.mp hq with rfl | hq'
        · simp [jsG, jsUpsert, objLookup, truthy, genMapPlanId_ne]
        · exact h4 q hq'

end Travle

namespace Travle

/-- C7 counterexample: the conversation-route validator accepts a plan that
carries no `id` and returns it without one — no id is generated there. -/
theorem claim_C7_counterexample :
    validateRecommendationResponse onePlanRaw = .ok onePlanJson
      ∧ plansOf onePlanJson = [goodPlan]
      ∧ jsG goodPlan "id" = .undefined := ⟨rfl, rfl, rfl⟩

/-- C7 (amended): the conversation-route validator never backfills ids (see
the counterexample); generated ids exist only in the geographic handler,
where every plan of an accepted response carries a truthy `id` after the
backfill, existing truthy ids being kept. -/
theorem claim_C7_amended (now : Nat) (parsed : Json) (l : List Json)
    (hnn : parsed ≠ .null)
    (hpl : jsG parsed "plans" = .val (.arr l))
    (hlnn : ∀ p ∈ l, p ≠ .null) :
    ∃ tps s, mapRespond now parsed = .ok tps s
      ∧ ∀ q ∈ tps, truthy (jsG q "id") = true := by
  obtain ⟨tps, h1, _h2, _h3, h4⟩ := backfillAll_ok now 0 l hlnn
  cases parsed
  case null => exact absurd rfl hnn
  case obj fs =>
    have hres : mapRespond now (Json.obj fs)
        = .ok tps
            (if truthy (jsG (Json.obj fs) "summary") then
              match jsG (Json.obj fs) "summary" with
              | .val j => j
              | .undefined => mapDefaultSummary
            else mapDefaultSummary) := by
      simp [mapRespond, hpl, h1, truthy, isArr, arrOf]
    exact ⟨tps, _, hres, h4⟩
  all_goals simp [jsG] at hpl

/-- C7 witness: the backfill at a concrete one-plan map response whose plan
has no id. -/
theorem claim_C7_witness :
    ∃ tps s, mapRespond 7 mapPlansBody = .ok tps s
      ∧ ∀ q ∈ tps, truthy (jsG q "id") = true :=
  claim_C7_amended 7 mapPlansBody [.obj []] (fun h => Json.noConfusion h) rfl
    (by intro p hp; rw [List.mem_singleton] at hp; subst hp; exact fun h => Json.noConfusion h)

end Travle

namespace Travle

/-- C8 counterexample: a 504 response is classified as the generic
OpenRouter API error, not as the upstream service error, so not every 5xx
status yields the service-error classification. -/
theorem claim_C8_counterexample :
    handleErrorResponse ⟨504, "Gateway Timeout", some (.obj [])⟩
        = "OpenRouter API error (504): Unknown error"
      ∧ strStarts "OpenRouter service error"
          "OpenRouter API error (504): Unknown error" = false := ⟨rfl, rfl⟩

/-- C8 (amended): with a parsed non-null error body, 401 throws the API-key
message (surfaced by the conversation route as the non-retryable
CONFIG_ERROR), 429 throws the rate-limit message (surfaced as the
retryable RATE_LIMIT), exactly the statuses 500, 502 and 503 throw the
upstream service-error message, 400 throws the bad-request message, and
every other status — including other 4xx and 5xx statuses — throws the
generic OpenRouter API error; any thrown message free of the catch-block
keywords is surfaced as the retryable INTERNAL_ERROR. -/
theorem claim_C8_amended :
    (∀ (sx : String) (d : Json), d ≠ .null →
      handleErrorResponse ⟨401, sx, some d⟩
        = "Invalid OpenRouter API key. Please check your OPENROUTER_API_KEY environment variable.")
    ∧ classifyCatch
        "Invalid OpenRouter API key. Please check your OPENROUTER_API_KEY environment variable."
          = .err "CONFIG_ERROR" false 500
    ∧ (∀ (sx : String) (d : Json), d ≠ .null →
        handleErrorResponse ⟨429, sx, some d⟩ = "Rate limit exceeded. Please try again later.")
    ∧ classifyCatch "Rate limit exceeded. Please try again later." = .err "RATE_LIMIT" true 429
    ∧ (∀ (st : Nat) (sx : String) (d : Json), d ≠ .null →
        (st = 500 ∨ st = 502 ∨ st = 503) →
        handleErrorResponse ⟨st, sx, some d⟩
          = "OpenRouter service error: " ++ jsDisplay (gatewayErrorMessage d)
              ++ ". Please try again.")
    ∧ (∀ (sx : String) (d : Json), d ≠ .null →
        handleErrorResponse ⟨400, sx, some d⟩
          = "Bad request: " ++ jsDisplay (gatewayErrorMessage d))
    ∧ (∀ (st : Nat) (sx : String) (d : Json), d ≠ .null →
        st ≠ 401 → st ≠ 429 → st ≠ 400 → st ≠ 500 → st ≠ 502 → st ≠ 503 →
        handleErrorResponse ⟨st, sx, some d⟩
          = "OpenRouter API error (" ++ jsDisplay (gatewayErrorCode d st) ++ "): "
              ++ jsDisplay (gatewayErrorMessage d))
    ∧ (∀ m : String, strContains m "API key" = false → strContains m "Rate limit" = false →
        strContains m "network" = false → strContains m "fetch" = false →
        classifyCatch m = .err "INTERNAL_ERROR" true 500) := by
  refine ⟨?_, rfl, ?_, rfl, ?_, ?_, ?_, ?_⟩
  · intro sx d hd
    cases d <;> simp [handleErrorResponse]
    exact absurd rfl hd
  · intro sx d hd
    cases d <;> simp [handleErrorResponse]
    exact absurd rfl hd
  · intro st sx d hd hst
    cases d
    case null => exact absurd rfl hd
    all_goals rcases hst with rfl | rfl | rfl <;> simp [handleErrorResponse]
  · intro sx d hd
    cases d <;> simp [handleErrorResponse]
    exact absurd rfl hd
  · intro st sx d hd h1 h2 h3 h4 h5 h6
    cases d
    case null => exact absurd rfl hd
    all_goals simp [handleErrorResponse, h1, h2, h3, h4, h5, h6]
  · intro m h1 h2 h3 h4
    simp [classifyCatch, h1, h2, h3, h4]

/-- C8 witness: the 401 classification at a concrete response, and the
retryable surfacing of a concrete keyword-free service-error message. -/
theorem claim_C8_witness :
    handleErrorResponse ⟨401, "Unauthorized", some (.obj [])⟩
        = "Invalid OpenRouter API key. Please check your OPENROUTER_API_KEY environment variable."
      ∧ classifyCatch "OpenRouter service error: boom. Please try again."
          = .err "INTERNAL_ERROR" true 500 :=
  ⟨claim_C8_amended.1 "Unauthorized" (.obj []) (fun h => Json.noConfusion h),
   claim_C8_amended.2.2.2.2.2.2.2 "OpenRouter service error: boom. Please try again."
     (by decide) (by decide) (by decide) (by decide)⟩

end Travle

namespace Travle

theorem checkMsgs_bad (ms : List Json) :
    (∀ m ∈ ms, m ≠ .null) → (∃ m ∈ ms, badMsgB m = true) →
    checkMsgs ms = some (.err "INVALID_MESSAGE" false 400) := by
  induction ms with
  | nil =>
    intro _ hb
    simp at hb
  | cons m rest ih =>
    intro hnn hb
    have hmn : m ≠ Json.null := hnn m (by simp)
    have hstep : checkMsgs (m :: rest)
        = if badMsgB m then some (.err "INVALID_MESSAGE" false 400) else checkMsgs rest := by
      cases m
      case null => exact absurd rfl hmn
      all_goals rfl
    rw [hstep]
    by_cases hbm : badMsgB m = true
    · rw [if_pos hbm]
    · rw [if_neg hbm]
      refine ih (fun q hq => hnn q (by simp [hq])) ?_
      rcases hb with ⟨q, hq, hbq⟩
      rcases List.mem_cons.mp hq with rfl | hq'
      · exact absurd hbq hbm
      · exact ⟨q, hq', hbq⟩

theorem claimBadMsg_badMsgB (m : Json) (h : claimBadMsg m) : badMsgB m = true := by
  unfold claimBadMsg at h
  unfold badMsgB
  rcases h with (h | h) | (h | h | h) <;> simp [h, truthy]

theorem validateRequestBody_messages (b : Json) (ms : List Json)
    (hb : jsG b "messages" = .val (.arr ms)) :
    validateRequestBody b = checkMsgs ms := by
  cases b <;> simp only [jsG] at hb
  case obj fs => simp [validateRequestBody, jsG, hb, truthy, isArr, arrOf]
  all_goals exact absurd hb (by simp)

theorem validateRequestBody_notArr (b : Json) (hnn : b ≠ .null)
    (h : isArr (jsG b "messages") = false) :
    validateRequestBody b = some (.err "INVALID_REQUEST" false 400) := by
  cases b
  case null => exact absurd rfl hnn
  all_goals simp [validateRequestBody, h]

/-- C9: a request whose `messages` field is not an array, or one of whose
messages has a missing or empty role, or a missing, empty, or non-string
content, is answered with the non-retryable 400 request-validation failure;
the answer is the same for every LLM outcome, so no gateway call can
influence it (the handler returns before the call). -/
theorem claim_C9 :
    (∀ (b : Json) (llm : Except String String), b ≠ Json.null →
      isArr (jsG b "messages") = false →
      assistantPOST (some b) llm = .err "INVALID_REQUEST" false 400)
    ∧ (∀ (b : Json) (ms : List Json) (llm : Except String String),
        jsG b "messages" = .val (.arr ms) →
        (∀ m ∈ ms, m ≠ Json.null) → (∃ m ∈ ms, claimBadMsg m) →
        assistantPOST (some b) llm = .err "INVALID_MESSAGE" false 400) := by
  constructor
  · intro b llm hnn hna
    have h := validateRequestBody_notArr b hnn hna
    simp [assistantPOST, h]
  · intro b ms llm hb hnn hbad
    have h1 : validateRequestBody b = checkMsgs ms := validateRequestBody_messages b ms hb
    have h2 : checkMsgs ms = some (.err "INVALID_MESSAGE" false 400) := by
      refine checkMsgs_bad ms hnn ?_
      rcases hbad with ⟨m, hm, hcm⟩
      exact ⟨m, hm, claimBadMsg_badMsgB m hcm⟩
    simp [assistantPOST, h1, h2]

/-- C9 witness: the missing-content failure at a concrete body, with an
arbitrary successful LLM outcome that the handler never consults. -/
theorem claim_C9_witness :
    assistantPOST (some noContentBody) (.ok "hello") = .err "INVALID_MESSAGE" false 400 :=
  claim_C9.2 noContentBody [Json.obj [("role", Json.str "user")]] (.ok "hello") rfl
    (by
      intro m hm
      rw [List.mem_singleton] at hm
      subst hm
      exact fun h => Json.noConfusion h)
    ⟨Json.obj [("role", Json.str "user")], by simp, Or.inr (Or.inl rfl)⟩

end Travle

namespace Travle

/-- C10 counterexample: a parsed response whose `plans` field is an array
holding a `null` entry makes the geographic handler throw while reading
`plan.id` and answer with a 500 error, although `plans` is an array and the
completion parsed — the handler does not accept every array. -/
theorem claim_C10_counterexample :
    mapRespond 0 (.obj [("plans", .arr [.null])]) = .thrown "Cannot read properties of null"
      ∧ isArr (jsG (.obj [("plans", .arr [Json.null])]) "plans") = true := ⟨rfl, rfl⟩

/-- C10 (amended): every parsed response that is an object whose `plans`
field is an array of objects — empty, longer than 3, or with plans missing
any of the schema fields — is accepted: the plan count is preserved (no
truncation, no bounds), each plan is returned unchanged apart from the id
backfill, and a missing summary is replaced by the fixed default string;
`id` aside, no key of any plan is touched; an error is produced only when
no JSON object can be parsed from the completion or `plans` fails the
array check. -/
theorem claim_C10_amended :
    (∀ (now : Nat) (parsed : Json) (l : List Json), parsed ≠ .null →
      jsG parsed "plans" = .val (.arr l) →
      (∀ p ∈ l, ∃ fs, p = Json.obj fs) →
      ∃ tps s, mapRespond now parsed = .ok tps s
        ∧ tps.length = l.length
        ∧ (∀ n fs, l.get? n = some (.obj fs) →
            tps.get? n = some (.obj (jsUpsert fs "id" (planIdValue now n fs))))
        ∧ (jsG parsed "summary" = .undefined → s = mapDefaultSummary))
    ∧ (∀ (fs : List (String × Json)) (k : String) (v : Json), k ≠ "id" →
        objLookup (jsUpsert fs "id" v) k = objLookup fs k)
    ∧ (∀ (now : Nat) (parsed : Json), parsed ≠ .null →
        isArr (jsG parsed "plans") = false →
        mapRespond now parsed = .invalidFormat)
    ∧ (∀ (now : Nat) (content : String), mapParseContent content = none →
        mapPOST now content = .parseFail) := by
  refine ⟨?_, ?_, ?_, ?_⟩
  · intro now parsed l hnn hpl hobj
    have hlnn : ∀ p ∈ l, p ≠ Json.null := by
      intro p hp hnull
      obtain ⟨fs, hfs⟩ := hobj p hp
      rw [hnull] at hfs
      exact Json.noConfusion hfs
    obtain ⟨tps, h1, h2, h3, _h4⟩ := backfillAll_ok now 0 l hlnn
    cases parsed
    case null => exact absurd rfl hnn
    case obj gs =>
      have hres : mapRespond now (Json.obj gs)
          = .ok tps
              (if truthy (jsG (Json.obj gs) "summary") then
                match jsG (Json.obj gs) "summary" with
                | .val j => j
                | .undefined => mapDefaultSummary
              else mapDefaultSummary) := by
        simp [mapRespond, hpl, h1, truthy, isArr, arrOf]
      refine ⟨tps, _, hres, h2, ?_, ?_⟩
      · intro n fs hfs
        have := h3 n fs hfs
        rwa [Nat.zero_add] at this
      · intro hsum
        rw [hsum]
        simp [truthy]
    all_goals simp [jsG] at hpl
  · intro fs k v hk
    exact objLookup_jsUpsert_other fs "id" k v hk
  · intro now parsed hnn hna
    cases parsed
    case null => exact absurd rfl hnn
    all_goals simp [mapRespond, hna]
  · intro now content h
    simp [mapPOST, h]

/-- C10 witness: a four-object-plan response is accepted whole, with the
plan count preserved and the default summary. -/
theorem claim_C10_witness :
    ∃ tps s, mapRespond 7 mapPlansBody4 = .ok tps s
      ∧ tps.length = ([Json.obj [], Json.obj [("id", Json.str "keep")],
          Json.obj [("x", Json.num ⟨2, 0⟩)], Json.obj []] : List Json).length
      ∧ (∀ n fs, ([Json.obj [], Json.obj [("id", Json.str "keep")],
          Json.obj [("x", Json.num ⟨2, 0⟩)], Json.obj []] : List Json).get? n
            = some (.obj fs) →
          tps.get? n = some (.obj (jsUpsert fs "id" (planIdValue 7 n fs))))
      ∧ (jsG mapPlansBody4 "summary" = .undefined → s = mapDefaultSummary) :=
  claim_C10_amended.1 7 mapPlansBody4
    [Json.obj [], Json.obj [("id", Json.str "keep")],
     Json.obj [("x", Json.num ⟨2, 0⟩)], Json.obj []]
    (fun h => Json.noConfusion h) rfl
    (by
      intro p hp
      simp only [List.mem_cons, List.not_mem_nil, or_false] at hp
      rcases hp with rfl | rfl | rfl | rfl <;> exact ⟨_, rfl⟩)

end Travle
